import Mathlib

/-!
Verification of the weresocool ring buffer against its specification.

The repository has two backends with identical counter logic:
`src/lib.rs` (atomic-based) and `src/lib_unsafe.rs` (UnsafeCell-based).
We embed both `read` paths shallowly; machine `usize` arithmetic is
modelled on `Nat` with explicit wraparound modulo `2^64` where the source
performs wrapping subtraction or increment.  The floating-point pacing
comparison `elapsed_time >= buffer_size as f32 / sample_rate * c`
(c = 0.75 in lib.rs, 0.7 in lib_unsafe.rs) is abstracted into a boolean
input `elapsed_ok` giving the result of that comparison; the wall-clock
value stored into `last_read` is abstracted into a `now : Nat` input
(nanoseconds, as in `to_nanos`).  Samples (`f32`) are only ever moved,
copied or zero-initialised by this code, never computed with, so frames
are modelled as `List Rat` with zero fill.
-/

/-- Width of `usize`/`u64` on the target: arithmetic wraps modulo this. -/
def U : Nat := 2 ^ 64

/-- Wrapping (two's-complement style) subtraction on `usize` values,
as performed by `total_writes - 1` and `total_writes - 6` in release
builds.  Both arguments are assumed `< U`; `wsub_eq_wrap` below proves
this branch form equal to the usual `(a + U - b) % U` formulation. -/
def wsub (a b : Nat) : Nat := if b ≤ a then a - b else U - (b - a)

/-- Error type of the buffer (`RingBufferError` in both source files). -/
inductive RingBufferError where
  | DataSizeMismatch
deriving DecidableEq

/-- State of `RingBuffer` (fields common to both backends).
`start_time` and `sample_rate` are absorbed by the `elapsed_ok` / `now`
abstraction described in the module docstring. -/
structure RingBuffer where
  buffers : List (List Rat)
  last_read : Nat
  total_writes : Nat
  total_reads : Nat
  buffer_size : Nat
  ring_buffer_size : Nat
deriving DecidableEq

/-- `RingBuffer::new`: `ring_buffer_size` slots, each a zero-filled frame
of `buffer_size` samples; both counters start at 0; `last_read` starts at
the (tiny) elapsed time `t0` measured at construction. -/
def RingBuffer.new (buffer_size ring_buffer_size : Nat) (t0 : Nat) : RingBuffer :=
  { buffers := List.replicate ring_buffer_size (List.replicate buffer_size 0)
  , last_read := t0
  , total_writes := 0
  , total_reads := 0
  , buffer_size := buffer_size
  , ring_buffer_size := ring_buffer_size }

/-- `RingBuffer::write` (identical logic in both backends): reject a
frame of the wrong length before touching anything, otherwise replace
slot `total_writes % ring_buffer_size` wholesale and increment
`total_writes` (wrapping `usize` increment). -/
def RingBuffer.write (rb : RingBuffer) (data : List Rat) :
    Option RingBufferError × RingBuffer :=
  if data.length ≠ rb.buffer_size then
    (some RingBufferError.DataSizeMismatch, rb)
  else
    let write_index := rb.total_writes % rb.ring_buffer_size
    (none,
      { rb with
        buffers := rb.buffers.set write_index data
        total_writes := (rb.total_writes + 1) % U })

/-- The pacing condition of `read`:
`total_reads < total_writes - 1 && elapsed_time >= threshold`, with the
`usize` subtraction wrapping and the time comparison abstracted as `e`. -/
def paceCondB (total_writes total_reads : Nat) (e : Bool) : Bool :=
  decide (total_reads < wsub total_writes 1) && e

/-- The backlog-governor (catch-up) condition of `read`:
`total_reads > 10 && total_reads < total_writes - 6`, wrapping. -/
def snapCondB (total_writes total_reads : Nat) : Bool :=
  decide (10 < total_reads) && decide (total_reads < wsub total_writes 6)

/-- The read counter after the pacing controller's decision:
incremented (wrapping) when the pacing condition holds, else unchanged. -/
def pacedReads (rb : RingBuffer) (e : Bool) : Nat :=
  if paceCondB rb.total_writes rb.total_reads e then (rb.total_reads + 1) % U
  else rb.total_reads

/-- `RingBuffer::read` from `src/lib.rs`.  The pacing step possibly
advances `total_reads` and stores `now` into `last_read`; the governor
then reloads the (possibly advanced) counter, and snaps it to
`total_writes` when the catch-up condition holds on that reloaded value.
The slot index is computed from the reloaded local value — i.e. after
the pacing advance but before the snap store. -/
def RingBuffer.read (rb : RingBuffer) (elapsed_ok : Bool) (now : Nat) :
    List Rat × RingBuffer :=
  let tr1 := pacedReads rb elapsed_ok
  let lr1 := if paceCondB rb.total_writes rb.total_reads elapsed_ok then now
             else rb.last_read
  let tr2 := if snapCondB rb.total_writes tr1 then rb.total_writes else tr1
  let read_index := tr1 % rb.ring_buffer_size
  (rb.buffers.getD read_index [],
    { rb with total_reads := tr2, last_read := lr1 })

/-- `RingBuffer::read` from `src/lib_unsafe.rs`.  Same pacing step, but
the governor's condition is evaluated on the `total_reads` value loaded
at the start of the call (before any pacing advance), its store
overrides the pacing store, and the slot index re-reads the final
counter value. -/
def RingBuffer.readCell (rb : RingBuffer) (elapsed_ok : Bool) (now : Nat) :
    List Rat × RingBuffer :=
  let tr1 := pacedReads rb elapsed_ok
  let lr1 := if paceCondB rb.total_writes rb.total_reads elapsed_ok then now
             else rb.last_read
  let tr2 := if snapCondB rb.total_writes rb.total_reads then rb.total_writes
             else tr1
  let read_index := tr2 % rb.ring_buffer_size
  (rb.buffers.getD read_index [],
    { rb with total_reads := tr2, last_read := lr1 })

/-- A state after an accepted pacing advance: read counter bumped
(wrapping) and `last_read` reset to `now`. -/
def RingBuffer.advanced (rb : RingBuffer) (now : Nat) : RingBuffer :=
  { rb with total_reads := (rb.total_reads + 1) % U, last_read := now }

/-- Shape invariant of the slot store: exactly `ring_buffer_size` slots,
each holding a frame of exactly `buffer_size` samples. -/
def SlotInv (rb : RingBuffer) : Prop :=
  rb.buffers.length = rb.ring_buffer_size ∧
    ∀ f ∈ rb.buffers, f.length = rb.buffer_size

/-- Sequence of writes, discarding the per-write results. -/
def writeAll (rb : RingBuffer) (fs : List (List Rat)) : RingBuffer :=
  fs.foldl (fun b f => (b.write f).2) rb

theorem wsub_eq_wrap (a b : Nat) (ha : a < U) (hb : b ≤ U) :
    wsub a b = (a + U - b) % U := by
  unfold wsub
  split
  · rw [Nat.mod_eq_sub_mod (by omega), Nat.mod_eq_of_lt (by omega)]
    omega
  · rw [Nat.mod_eq_of_lt (by omega)]
    omega

theorem paceCondB_false_right (tw tr : Nat) : paceCondB tw tr false = false := by
  simp [paceCondB]

theorem write_ok_eq (rb : RingBuffer) (data : List Rat)
    (h : data.length = rb.buffer_size) :
    rb.write data =
      (none,
        { rb with
          buffers := rb.buffers.set (rb.total_writes % rb.ring_buffer_size) data
          total_writes := (rb.total_writes + 1) % U }) := by
  simp [RingBuffer.write, h]

theorem write_buffer_size (rb : RingBuffer) (data : List Rat) :
    ((rb.write data).2).buffer_size = rb.buffer_size := by
  unfold RingBuffer.write; split <;> rfl

theorem write_ring_buffer_size (rb : RingBuffer) (data : List Rat) :
    ((rb.write data).2).ring_buffer_size = rb.ring_buffer_size := by
  unfold RingBuffer.write; split <;> rfl

theorem write_buffers_length (rb : RingBuffer) (data : List Rat) :
    ((rb.write data).2).buffers.length = rb.buffers.length := by
  unfold RingBuffer.write; split
  · rfl
  · simp [List.length_set]

theorem writeAll_cons (rb : RingBuffer) (f : List Rat) (fs : List (List Rat)) :
    writeAll rb (f :: fs) = writeAll (rb.write f).2 fs := rfl

theorem writeAll_append_one (rb : RingBuffer) (fs : List (List Rat)) (g : List Rat) :
    writeAll rb (fs ++ [g]) = ((writeAll rb fs).write g).2 := by
  simp [writeAll]

theorem writeAll_buffer_size (fs : List (List Rat)) :
    ∀ rb : RingBuffer, (writeAll rb fs).buffer_size = rb.buffer_size := by
  induction fs with
  | nil => intro rb; rfl
  | cons f fs ih =>
    intro rb
    rw [writeAll_cons, ih, write_buffer_size]

theorem writeAll_ring_buffer_size (fs : List (List Rat)) :
    ∀ rb : RingBuffer, (writeAll rb fs).ring_buffer_size = rb.ring_buffer_size := by
  induction fs with
  | nil => intro rb; rfl
  | cons f fs ih =>
    intro rb
    rw [writeAll_cons, ih, write_ring_buffer_size]

theorem writeAll_buffers_length (fs : List (List Rat)) :
    ∀ rb : RingBuffer, (writeAll rb fs).buffers.length = rb.buffers.length := by
  induction fs with
  | nil => intro rb; rfl
  | cons f fs ih =>
    intro rb
    rw [writeAll_cons, ih, write_buffers_length]

theorem writeAll_total_writes (fs : List (List Rat)) :
    ∀ rb : RingBuffer, (∀ f ∈ fs, f.length = rb.buffer_size) →
      rb.total_writes + fs.length < U →
      (writeAll rb fs).total_writes = rb.total_writes + fs.length := by
  induction fs with
  | nil => intro rb _ _; simp [writeAll]
  | cons f fs ih =>
    intro rb hall hlt
    have hcons : rb.total_writes + (fs.length + 1) < U := by
      simpa [Nat.add_comm, Nat.add_assoc] using hlt
    have hf : f.length = rb.buffer_size := hall f (List.mem_cons_self f fs)
    have htw : (rb.write f).2.total_writes = rb.total_writes + 1 := by
      rw [write_ok_eq rb f hf]
      exact Nat.mod_eq_of_lt (by omega)
    have hall' : ∀ f' ∈ fs, f'.length = (rb.write f).2.buffer_size := by
      intro f' hf'
      rw [write_buffer_size]
      exact hall f' (List.mem_cons_of_mem f hf')
    have hlt' : (rb.write f).2.total_writes + fs.length < U := by
      rw [htw]; omega
    rw [writeAll_cons, ih _ hall' hlt', htw]
    simp [Nat.add_comm, Nat.add_assoc, Nat.add_left_comm]

theorem getD_length_of_inv (rb : RingBuffer) (i : Nat) (hInv : SlotInv rb)
    (hN : 0 < rb.ring_buffer_size) :
    (rb.buffers.getD (i % rb.ring_buffer_size) []).length = rb.buffer_size := by
  have hidx : i % rb.ring_buffer_size < rb.buffers.length := by
    rw [hInv.1]; exact Nat.mod_lt _ hN
  rw [List.getD_eq_getElem _ _ hidx]
  exact hInv.2 _ (List.getElem_mem hidx)

/-- C1: the claim states the pacing gate is `read_counter < write_counter`,
so that with `write_counter = read_counter + 1` and the window elapsed the
advance is accepted.  The code gates on `read_counter < write_counter - 1`:
at write_counter = 1, read_counter = 0, elapsed window open, neither
backend advances the counter nor resets `last_read`. -/
theorem c1_pacing_rule_counterexample :
    ({ RingBuffer.new 1 4 0 with total_writes := 1 }).total_writes
      = ({ RingBuffer.new 1 4 0 with total_writes := 1 }).total_reads + 1 ∧
    (({ RingBuffer.new 1 4 0 with total_writes := 1 }).read true 5).2.total_reads = 0 ∧
    (({ RingBuffer.new 1 4 0 with total_writes := 1 }).read true 5).2.last_read = 0 ∧
    (({ RingBuffer.new 1 4 0 with total_writes := 1 }).readCell true 5).2.total_reads = 0 ∧
    (({ RingBuffer.new 1 4 0 with total_writes := 1 }).readCell true 5).2.last_read = 0 ∧
    (0 : Nat) ≠ 5 := by decide

/-- C1 (amended): in both backends the pacing step advances the read
counter by exactly 1 and resets `last_read` to now exactly when the
elapsed-time comparison holds and `read_counter < write_counter - 1`
computed with wrapping usize subtraction (so a backlog of at least 2 is
required whenever `write_counter ≥ 1`). -/
theorem c1_pacing_rule_amended (rb : RingBuffer) (e : Bool) (now : Nat)
    (h : rb.total_reads + 1 < U) :
    (paceCondB rb.total_writes rb.total_reads e = true ↔
      (e = true ∧ rb.total_reads < wsub rb.total_writes 1)) ∧
    (paceCondB rb.total_writes rb.total_reads e = true →
      pacedReads rb e = rb.total_reads + 1 ∧
      (rb.read e now).2.last_read = now ∧
      (rb.readCell e now).2.last_read = now) ∧
    (paceCondB rb.total_writes rb.total_reads e = false →
      pacedReads rb e = rb.total_reads ∧
      (rb.read e now).2.last_read = rb.last_read ∧
      (rb.readCell e now).2.last_read = rb.last_read) := by
  refine ⟨?_, ?_, ?_⟩
  · simp [paceCondB, and_comm]
  · intro hp
    refine ⟨?_, ?_, ?_⟩
    · simp only [pacedReads, hp, if_true]
      exact Nat.mod_eq_of_lt h
    · simp [RingBuffer.read, hp]
    · simp [RingBuffer.readCell, hp]
  · intro hp
    refine ⟨?_, ?_, ?_⟩
    · simp [pacedReads, hp]
    · simp [RingBuffer.read, hp]
    · simp [RingBuffer.readCell, hp]

/-- C1 witness: at write_counter = 2, read_counter = 0, window elapsed,
the advance is accepted and `last_read` is reset. -/
theorem c1_pacing_rule_witness :
    pacedReads ({ RingBuffer.new 1 4 0 with total_writes := 2 }) true = 0 + 1 ∧
    (({ RingBuffer.new 1 4 0 with total_writes := 2 }).read true 9).2.last_read = 9 ∧
    (({ RingBuffer.new 1 4 0 with total_writes := 2 }).readCell true 9).2.last_read = 9 :=
  (c1_pacing_rule_amended { RingBuffer.new 1 4 0 with total_writes := 2 } true 9
    (by decide)).2.1 (by decide)

/-- C2: on a freshly constructed buffer (write_counter = 0) the pacing
comparison `total_reads < total_writes - 1` is evaluated on the wrapped
value 2^64 - 1, so both backends advance the read counter past the write
counter; the spec requires saturating or signed-safe arithmetic here. -/
theorem c2_underflow_eval :
    wsub (RingBuffer.new 8 4 0).total_writes 1 = U - 1 ∧
    (RingBuffer.new 8 4 0).total_writes = 0 ∧
    ((RingBuffer.new 8 4 0).read true 5).2.total_reads = 1 ∧
    ((RingBuffer.new 8 4 0).readCell true 5).2.total_reads = 1 := by decide

/-- C3: the claim's warm-up bound is `read_counter ≥ 10`, but the code
tests `total_reads > 10`: at read_counter = 10 with backlog 90 and the
pacing window closed, no snap happens in either backend. -/
theorem c3_catch_up_counterexample :
    10 ≤ ({ RingBuffer.new 1 4 0 with total_writes := 100, total_reads := 10 }).total_reads ∧
    6 < ({ RingBuffer.new 1 4 0 with total_writes := 100, total_reads := 10 }).total_writes
      - ({ RingBuffer.new 1 4 0 with total_writes := 100, total_reads := 10 }).total_reads ∧
    (({ RingBuffer.new 1 4 0 with total_writes := 100, total_reads := 10 }).read false 0).2.total_reads
      ≠ ({ RingBuffer.new 1 4 0 with total_writes := 100, total_reads := 10 }).total_writes ∧
    (({ RingBuffer.new 1 4 0 with total_writes := 100, total_reads := 10 }).readCell false 0).2.total_reads
      ≠ ({ RingBuffer.new 1 4 0 with total_writes := 100, total_reads := 10 }).total_writes := by
  decide

/-- C3 (amended): whenever the catch-up condition — read counter strictly
greater than 10 and more than 6 behind the write counter — holds on the
value the governor actually examines (the post-pacing counter in lib.rs,
the counter loaded at call start in lib_unsafe.rs), that read() call
snaps the read counter to the write counter, leaving backlog 0. -/
theorem c3_catch_up_amended (rb : RingBuffer) (e : Bool) (now : Nat) :
    (snapCondB rb.total_writes (pacedReads rb e) = true →
      (rb.read e now).2.total_reads = rb.total_writes) ∧
    (snapCondB rb.total_writes rb.total_reads = true →
      (rb.readCell e now).2.total_reads = rb.total_writes) := by
  constructor
  · intro h; simp [RingBuffer.read, h]
  · intro h; simp [RingBuffer.readCell, h]

/-- C3 witness: at read_counter = 11, write_counter = 100, the snap fires
and the read counter lands on the write counter. -/
theorem c3_catch_up_witness :
    (({ RingBuffer.new 1 4 0 with total_writes := 100, total_reads := 11 }).read false 0).2.total_reads
      = ({ RingBuffer.new 1 4 0 with total_writes := 100, total_reads := 11 }).total_writes :=
  (c3_catch_up_amended { RingBuffer.new 1 4 0 with total_writes := 100, total_reads := 11 }
    false 0).1 (by decide)

/-- C4: the claim says both backends evaluate the governor on the
post-pacing counter.  In lib_unsafe.rs it is evaluated on the value
loaded at the start of the call: at write_counter = 100,
read_counter = 10, window open, the pacing step advances to 11 — a value
on which the catch-up condition holds — yet no snap happens. -/
theorem c4_governor_order_counterexample :
    snapCondB ({ RingBuffer.new 1 4 0 with total_writes := 100, total_reads := 10 }).total_writes
      (pacedReads { RingBuffer.new 1 4 0 with total_writes := 100, total_reads := 10 } true) = true ∧
    (({ RingBuffer.new 1 4 0 with total_writes := 100, total_reads := 10 }).readCell true 7).2.total_reads
      ≠ ({ RingBuffer.new 1 4 0 with total_writes := 100, total_reads := 10 }).total_writes := by
  decide

/-- C4 (amended): in lib.rs the governor and the returned slot index both
see the pacing-advanced counter — a paced read is indistinguishable from
a read without pacing on the already-advanced state.  In lib_unsafe.rs
the governor's condition uses the counter loaded at call start: whenever
it holds there, the counter is snapped and the returned frame is the one
at the write counter's slot, regardless of the pacing decision. -/
theorem c4_governor_order_amended (rb : RingBuffer) (e : Bool) (now : Nat) :
    (paceCondB rb.total_writes rb.total_reads e = true →
      rb.read e now = (rb.advanced now).read false now) ∧
    (snapCondB rb.total_writes rb.total_reads = true →
      (rb.readCell e now).2.total_reads = rb.total_writes ∧
      (rb.readCell e now).1 =
        rb.buffers.getD (rb.total_writes % rb.ring_buffer_size) []) := by
  constructor
  · intro h
    simp [RingBuffer.read, RingBuffer.advanced, pacedReads, h, paceCondB_false_right]
  · intro h
    constructor
    · simp [RingBuffer.readCell, h]
    · simp [RingBuffer.readCell, h]

/-- C4 witness: a concrete paced lib.rs read equals the unpaced read of
the advanced state. -/
theorem c4_governor_order_witness :
    ({ RingBuffer.new 1 4 0 with total_writes := 100, total_reads := 10 }).read true 7
      = (({ RingBuffer.new 1 4 0 with total_writes := 100, total_reads := 10 }).advanced 7).read false 7 :=
  (c4_governor_order_amended
    { RingBuffer.new 1 4 0 with total_writes := 100, total_reads := 10 } true 7).1 (by decide)

/-- C5: a frame of the wrong length is rejected with DataSizeMismatch
before any mutation: counters and every slot are exactly as before. -/
theorem c5_size_mismatch (rb : RingBuffer) (data : List Rat)
    (h : data.length ≠ rb.buffer_size) :
    rb.write data = (some RingBufferError.DataSizeMismatch, rb) := by
  simp [RingBuffer.write, h]

/-- C5 witness: a 3-sample frame offered to a buffer of frame length 2. -/
theorem c5_size_mismatch_witness :
    (RingBuffer.new 2 2 0).write [1, 2, 3]
      = (some RingBufferError.DataSizeMismatch, RingBuffer.new 2 2 0) :=
  c5_size_mismatch (RingBuffer.new 2 2 0) [1, 2, 3] (by decide)

/-- C6: a frame of exactly the configured length is accepted, stored
wholesale at slot write_counter mod capacity (pre-increment value), and
the write counter advances by exactly 1 (stated below the usize bound);
a failed write advances it by 0. -/
theorem c6_write_success (rb : RingBuffer) (data : List Rat)
    (h : data.length = rb.buffer_size) (h2 : rb.total_writes + 1 < U) :
    (rb.write data).1 = none ∧
    (rb.write data).2.buffers
      = rb.buffers.set (rb.total_writes % rb.ring_buffer_size) data ∧
    (rb.write data).2.total_writes = rb.total_writes + 1 ∧
    (rb.write data).2.total_reads = rb.total_reads ∧
    (∀ bad : List Rat, bad.length ≠ rb.buffer_size →
      (rb.write bad).2.total_writes = rb.total_writes) := by
  refine ⟨?_, ?_, ?_, ?_, ?_⟩
  · simp [RingBuffer.write, h]
  · simp [RingBuffer.write, h]
  · rw [write_ok_eq rb data h]
    exact Nat.mod_eq_of_lt h2
  · simp [RingBuffer.write, h]
  · intro bad hbad
    simp [RingBuffer.write, hbad]

/-- C6 witness: writing the frame 5, 6 into a fresh 2-sample, 3-slot
buffer succeeds and bumps the write counter from 0 to 1. -/
theorem c6_write_success_witness :
    ((RingBuffer.new 2 3 0).write [5, 6]).1 = none ∧
    ((RingBuffer.new 2 3 0).write [5, 6]).2.total_writes = 0 + 1 :=
  ⟨(c6_write_success (RingBuffer.new 2 3 0) [5, 6] (by decide) (by decide)).1,
   (c6_write_success (RingBuffer.new 2 3 0) [5, 6] (by decide) (by decide)).2.2.1⟩

/-- C7: the slot-shape invariant — capacity many slots, each of frame
length — holds at construction and is preserved by write and by both
read paths; under it (and positive capacity) every read returns a frame
of exactly the configured length, and a read on a freshly constructed
buffer returns the zero-filled default frame. -/
theorem c7_full_length_frames :
    (∀ L N t0, SlotInv (RingBuffer.new L N t0)) ∧
    (∀ rb data, SlotInv rb → SlotInv (rb.write data).2) ∧
    (∀ rb (e : Bool) (now : Nat), SlotInv rb →
      SlotInv (rb.read e now).2 ∧ SlotInv (rb.readCell e now).2) ∧
    (∀ rb (e : Bool) (now : Nat), SlotInv rb → 0 < rb.ring_buffer_size →
      ((rb.read e now).1).length = rb.buffer_size ∧
      ((rb.readCell e now).1).length = rb.buffer_size) ∧
    (∀ L N t0 (e : Bool) (now : Nat), 0 < N →
      ((RingBuffer.new L N t0).read e now).1 = List.replicate L 0) := by
  refine ⟨?_, ?_, ?_, ?_, ?_⟩
  · intro L N t0
    refine ⟨by simp [RingBuffer.new], ?_⟩
    intro f hf
    rw [List.eq_of_mem_replicate hf]
    simp [RingBuffer.new]
  · intro rb data hInv
    unfold RingBuffer.write
    by_cases h : data.length = rb.buffer_size
    · rw [if_neg (by simp [h])]
      refine ⟨by simpa using hInv.1, ?_⟩
      intro f hf
      simp only at hf
      rcases List.mem_or_eq_of_mem_set hf with h1 | h2
      · exact hInv.2 f h1
      · simpa [h2] using h
    · rw [if_pos (by simpa using h)]
      exact hInv
  · intro rb e now hInv
    exact ⟨hInv, hInv⟩
  · intro rb e now hInv hN
    exact ⟨getD_length_of_inv rb (pacedReads rb e) hInv hN,
           getD_length_of_inv rb _ hInv hN⟩
  · intro L N t0 e now hN
    have hidx : pacedReads (RingBuffer.new L N t0) e % N
        < (List.replicate N (List.replicate L (0 : Rat))).length := by
      simpa using Nat.mod_lt _ hN
    calc ((RingBuffer.new L N t0).read e now).1
        = (List.replicate N (List.replicate L 0)).getD
            (pacedReads (RingBuffer.new L N t0) e % N) [] := rfl
      _ = List.replicate L 0 := by
          rw [List.getD_eq_getElem _ _ hidx]
          simp

/-- C7 witness: a fresh 2-slot buffer of 3-sample frames returns the
zero-filled default frame. -/
theorem c7_full_length_frames_witness :
    ((RingBuffer.new 3 2 0).read true 5).1 = List.replicate 3 0 :=
  c7_full_length_frames.2.2.2.2 3 2 0 true 5 (by decide)

/-- C8: starting from a fresh buffer of capacity N, N + 1 valid writes
all succeed (the write counter reaches N + 1) and the last frame lands
in slot 0, replacing the frame the first write stored there. -/
theorem c8_wraparound (L N t0 : Nat) (fs : List (List Rat)) (g : List Rat)
    (hN : 0 < N) (hfs : fs.length = N) (hall : ∀ f ∈ fs, f.length = L)
    (hg : g.length = L) (hU : N + 1 < U) :
    (writeAll (RingBuffer.new L N t0) (fs ++ [g])).total_writes = N + 1 ∧
    (writeAll (RingBuffer.new L N t0) (fs ++ [g])).buffers.getD 0 [] = g := by
  have hall2 : ∀ f ∈ fs ++ [g], f.length = (RingBuffer.new L N t0).buffer_size := by
    intro f hf
    rcases List.mem_append.1 hf with h1 | h2
    · exact hall f h1
    · rw [List.mem_singleton.1 h2]; exact hg
  have hall1 : ∀ f ∈ fs, f.length = (RingBuffer.new L N t0).buffer_size := by
    intro f hf; exact hall2 f (List.mem_append.2 (Or.inl hf))
  have htwmid : (writeAll (RingBuffer.new L N t0) fs).total_writes = N := by
    have := writeAll_total_writes fs (RingBuffer.new L N t0) hall1
      (by simp only [RingBuffer.new, hfs]; omega)
    simpa [hfs, RingBuffer.new] using this
  have hbs : (writeAll (RingBuffer.new L N t0) fs).buffer_size = L := by
    simpa using writeAll_buffer_size fs (RingBuffer.new L N t0)
  have hrs : (writeAll (RingBuffer.new L N t0) fs).ring_buffer_size = N := by
    simpa using writeAll_ring_buffer_size fs (RingBuffer.new L N t0)
  have hlen : (writeAll (RingBuffer.new L N t0) fs).buffers.length = N := by
    have := writeAll_buffers_length fs (RingBuffer.new L N t0)
    simpa [RingBuffer.new] using this
  rw [writeAll_append_one]
  rw [write_ok_eq _ g (by rw [hbs, hg])]
  constructor
  · show ((writeAll (RingBuffer.new L N t0) fs).total_writes + 1) % U = N + 1
    rw [htwmid]
    exact Nat.mod_eq_of_lt hU
  · show ((writeAll (RingBuffer.new L N t0) fs).buffers.set
        ((writeAll (RingBuffer.new L N t0) fs).total_writes
          % (writeAll (RingBuffer.new L N t0) fs).ring_buffer_size) g).getD 0 [] = g
    rw [htwmid, hrs, Nat.mod_self]
    have h0 : 0 < ((writeAll (RingBuffer.new L N t0) fs).buffers.set 0 g).length := by
      rw [List.length_set, hlen]; exact hN
    rw [List.getD_eq_getElem _ _ h0]
    exact List.getElem_set_self h0

/-- C8 witness: capacity 2, frames 3 then 4 then 5; after the
three writes slot 0 holds the frame 5. -/
theorem c8_wraparound_witness :
    (writeAll (RingBuffer.new 1 2 0) ([[3], [4]] ++ [[5]])).total_writes = 2 + 1 ∧
    (writeAll (RingBuffer.new 1 2 0) ([[3], [4]] ++ [[5]])).buffers.getD 0 [] = [5] :=
  c8_wraparound 1 2 0 [[3], [4]] [5] (by decide) (by decide) (by decide)
    (by decide) (by decide)

/-- C9: per read() call the read counter either stays, advances by one
(pacing), or is clamped to the write counter (governor); a call in which
neither the pacing rule nor the catch-up snap fires is a complete no-op
on the state and returns the frame at the current, unadvanced cursor;
hence two consecutive reads within one pacing window (elapsed comparison
false), with no intervening writes and no snap pending, return identical
frames. -/
theorem c9_repeat_read_stable (rb : RingBuffer) (e : Bool) (now now2 : Nat) :
    ((rb.read e now).2.total_reads = rb.total_reads ∨
     (rb.read e now).2.total_reads = (rb.total_reads + 1) % U ∨
     (rb.read e now).2.total_reads = rb.total_writes) ∧
    ((rb.readCell e now).2.total_reads = rb.total_reads ∨
     (rb.readCell e now).2.total_reads = (rb.total_reads + 1) % U ∨
     (rb.readCell e now).2.total_reads = rb.total_writes) ∧
    (paceCondB rb.total_writes rb.total_reads e = false →
      snapCondB rb.total_writes rb.total_reads = false →
      rb.read e now
        = (rb.buffers.getD (rb.total_reads % rb.ring_buffer_size) [], rb) ∧
      rb.readCell e now
        = (rb.buffers.getD (rb.total_reads % rb.ring_buffer_size) [], rb)) ∧
    (snapCondB rb.total_writes rb.total_reads = false →
      ((rb.read false now).2.read false now2).1 = (rb.read false now).1 ∧
      ((rb.readCell false now).2.readCell false now2).1 = (rb.readCell false now).1) := by
  have hnoop : ∀ now : Nat, paceCondB rb.total_writes rb.total_reads e = false →
      snapCondB rb.total_writes rb.total_reads = false →
      rb.read e now
        = (rb.buffers.getD (rb.total_reads % rb.ring_buffer_size) [], rb) ∧
      rb.readCell e now
        = (rb.buffers.getD (rb.total_reads % rb.ring_buffer_size) [], rb) := by
    intro n hp hs
    constructor
    · simp [RingBuffer.read, pacedReads, hp, hs]
    · simp [RingBuffer.readCell, pacedReads, hp, hs]
  refine ⟨?_, ?_, hnoop now, ?_⟩
  · by_cases hp : paceCondB rb.total_writes rb.total_reads e = true
    · by_cases hs : snapCondB rb.total_writes ((rb.total_reads + 1) % U) = true
      · right; right; simp [RingBuffer.read, pacedReads, hp, hs]
      · right; left; simp [RingBuffer.read, pacedReads, hp, hs]
    · by_cases hs : snapCondB rb.total_writes rb.total_reads = true
      · right; right; simp [RingBuffer.read, pacedReads, hp, hs]
      · left; simp [RingBuffer.read, pacedReads, hp, hs]
  · by_cases hs : snapCondB rb.total_writes rb.total_reads = true
    · right; right; simp [RingBuffer.readCell, hs]
    · by_cases hp : paceCondB rb.total_writes rb.total_reads e = true
      · right; left; simp [RingBuffer.readCell, pacedReads, hp, hs]
      · left; simp [RingBuffer.readCell, pacedReads, hp, hs]
  · intro hs
    have hp := paceCondB_false_right rb.total_writes rb.total_reads
    constructor
    · have h1 : rb.read false now
          = (rb.buffers.getD (rb.total_reads % rb.ring_buffer_size) [], rb) := by
        simp [RingBuffer.read, pacedReads, hp, hs]
      rw [h1]
      simp [RingBuffer.read, pacedReads, hp, hs]
    · have h1 : rb.readCell false now
          = (rb.buffers.getD (rb.total_reads % rb.ring_buffer_size) [], rb) := by
        simp [RingBuffer.readCell, pacedReads, hp, hs]
      rw [h1]
      simp [RingBuffer.readCell, pacedReads, hp, hs]

/-- C9 witness: on a fresh buffer with two frames written and the pacing
window closed, two consecutive reads return the same frame. -/
theorem c9_repeat_read_stable_witness :
    ((({ RingBuffer.new 1 4 0 with total_writes := 2 }).read false 3).2.read false 4).1
      = (({ RingBuffer.new 1 4 0 with total_writes := 2 }).read false 3).1 :=
  ((c9_repeat_read_stable { RingBuffer.new 1 4 0 with total_writes := 2 }
    false 3 4).2.2.2 (by decide)).1

/-- C10: no read() call modifies any slot; `last_read` is reset only by
a pacing-gated advance (if the pacing condition fails it is unchanged);
a governor snap with the pacing window closed moves only the read
counter, leaving `last_read` untouched, in both backends. -/
theorem c10_snap_only_moves_cursor (rb : RingBuffer) (e : Bool) (now : Nat) :
    (rb.read e now).2.buffers = rb.buffers ∧
    (rb.readCell e now).2.buffers = rb.buffers ∧
    (paceCondB rb.total_writes rb.total_reads e = false →
      (rb.read e now).2.last_read = rb.last_read ∧
      (rb.readCell e now).2.last_read = rb.last_read) ∧
    (snapCondB rb.total_writes rb.total_reads = true →
      (rb.read false now).2.total_reads = rb.total_writes ∧
      (rb.read false now).2.last_read = rb.last_read ∧
      (rb.readCell false now).2.total_reads = rb.total_writes ∧
      (rb.readCell false now).2.last_read = rb.last_read) := by
  refine ⟨rfl, rfl, ?_, ?_⟩
  · intro hp
    constructor
    · simp [RingBuffer.read, hp]
    · simp [RingBuffer.readCell, hp]
  · intro hs
    have hp := paceCondB_false_right rb.total_writes rb.total_reads
    refine ⟨?_, ?_, ?_, ?_⟩
    · simp [RingBuffer.read, pacedReads, hp, hs]
    · simp [RingBuffer.read, pacedReads, hp, hs]
    · simp [RingBuffer.readCell, pacedReads, hp, hs]
    · simp [RingBuffer.readCell, pacedReads, hp, hs]

/-- C10 witness: a snap-only read (backlog 89, window closed) sets the
read counter to the write counter and leaves `last_read` at 0. -/
theorem c10_snap_only_moves_cursor_witness :
    (({ RingBuffer.new 1 4 0 with total_writes := 100, total_reads := 11 }).read false 9).2.total_reads = 100 ∧
    (({ RingBuffer.new 1 4 0 with total_writes := 100, total_reads := 11 }).read false 9).2.last_read = 0 :=
  ⟨((c10_snap_only_moves_cursor
      { RingBuffer.new 1 4 0 with total_writes := 100, total_reads := 11 }
      false 9).2.2.2 (by decide)).1,
   ((c10_snap_only_moves_cursor
      { RingBuffer.new 1 4 0 with total_writes := 100, total_reads := 11 }
      false 9).2.2.2 (by decide)).2.1⟩
